import Mathlib

/-!
Verification of the PDF outline extractor (src/main.py).

The development shallowly embeds the heading/title scoring and classification
engine of the extractor.  Python strings are modelled as Lean String values
and all string primitives used by the source (substring membership via the
Python in operator, str.lower, str.strip, str.startswith, str.isupper,
len) are implemented over the underlying character lists so that every
definition evaluates by kernel reduction.  The specific regular expressions
used by the source are embedded as regular-expression terms and decided with
a Brzozowski-derivative matcher, which implements exactly the usual
backtracking-free regular-expression semantics.  Font sizes and page
coordinates are floats in the source; the source only compares them and
takes max/min, so they are modelled exactly as rationals.  Character classes
are modelled over ASCII, matching the documents the source targets.
-/

namespace PDFOutline

/-! ## Python string primitives -/

/-- Lowercase one character, as Python str.lower does on ASCII. -/
def chLower (c : Char) : Char := c.toLower

/-- Bool test that the first list is an initial segment of the second. -/
def leadsWith : List Char → List Char → Bool
  | [], _ => true
  | _ :: _, [] => false
  | a :: as, b :: bs => a == b && leadsWith as bs

/-- Occurrence of one character list inside another, at any position. -/
def pyInChars (n : List Char) : List Char → Bool
  | [] => leadsWith n []
  | c :: rest => leadsWith n (c :: rest) || pyInChars n rest

/-- Python expression needle in hay for strings. -/
def pyIn (needle hay : String) : Bool := pyInChars needle.data hay.data

/-- Python str.lower (ASCII). -/
def pyLower (s : String) : String := ⟨s.data.map chLower⟩

/-- Remove leading and trailing whitespace from a character list. -/
def stripChars (cs : List Char) : List Char :=
  ((cs.dropWhile Char.isWhitespace).reverse.dropWhile Char.isWhitespace).reverse

/-- Python str.strip. -/
def pyStrip (s : String) : String := ⟨stripChars s.data⟩

/-- Python len for strings (number of characters). -/
def pyLen (s : String) : Nat := s.data.length

/-- Python str.startswith. -/
def pyStartsWith (s head : String) : Bool := leadsWith head.data s.data

/-- Python str.isupper (ASCII): at least one cased character and no
lowercase character. -/
def pyIsUpper (s : String) : Bool :=
  s.data.any Char.isAlpha && s.data.all (fun c => !c.isLower)

/-! ## Regular expressions, with a Brzozowski-derivative matcher -/

/-- Regular-expression terms: empty language, empty string, a character
class, concatenation, alternation, Kleene star. -/
inductive RE
  | emp
  | eps
  | chr (p : Char → Bool)
  | cat (a b : RE)
  | alt (a b : RE)
  | star (a : RE)

/-- Whether a regular expression accepts the empty string. -/
def reNull : RE → Bool
  | .emp => false
  | .eps => true
  | .chr _ => false
  | .cat a b => reNull a && reNull b
  | .alt a b => reNull a || reNull b
  | .star _ => true

/-- Concatenation smart constructor (keeps derivatives small). -/
def mkCat : RE → RE → RE
  | .emp, _ => .emp
  | _, .emp => .emp
  | .eps, b => b
  | a, .eps => a
  | a, b => .cat a b

/-- Alternation smart constructor (keeps derivatives small). -/
def mkAlt : RE → RE → RE
  | .emp, b => b
  | a, .emp => a
  | a, b => .alt a b

/-- Brzozowski derivative of a regular expression by one character. -/
def reDeriv : RE → Char → RE
  | .emp, _ => .emp
  | .eps, _ => .emp
  | .chr p, c => if p c then .eps else .emp
  | .cat a b, c =>
    if reNull a then mkAlt (mkCat (reDeriv a c) b) (reDeriv b c)
    else mkCat (reDeriv a c) b
  | .alt a b, c => mkAlt (reDeriv a c) (reDeriv b c)
  | .star a, c => mkCat (reDeriv a c) (.star a)

/-- Whether a regular expression accepts exactly the given character list. -/
def reAccepts (r : RE) (cs : List Char) : Bool := reNull (cs.foldl reDeriv r)

/-- Character class accepting any character at all. -/
def reAny : RE := .chr (fun _ => true)

/-- Python re.match with the pattern anchored at both ends (a trailing
dollar in the source pattern): the whole string must match. -/
def reFull (r : RE) (s : String) : Bool := reAccepts r s.data

/-- Python re.match without a trailing anchor: some prefix of the string
must match. -/
def reStart (r : RE) (s : String) : Bool := reAccepts (.cat r (.star reAny)) s.data

/-- A single literal character. -/
def chId (c : Char) : RE := .chr (fun x => x == c)

/-- A literal string. -/
def reStr (s : String) : RE := s.data.foldr (fun c r => .cat (chId c) r) .eps

/-- One or more repetitions. -/
def rePlus (r : RE) : RE := .cat r (.star r)

/-- Zero or one repetition. -/
def reOpt (r : RE) : RE := .alt r .eps

/-- Character class for a backslash-d digit (ASCII). -/
def reDigit : RE := .chr Char.isDigit

/-- Character class for backslash-s whitespace. -/
def reWs : RE := .chr Char.isWhitespace

/-- Character class for a Latin letter of either case. -/
def reAlpha : RE := .chr Char.isAlpha

/-- Character class for a lowercase Latin letter. -/
def reLowerAlpha : RE := .chr Char.isLower

/-- Regex dot: any character except a newline. -/
def reDot : RE := .chr (fun c => !(c == '\n'))

/-! The regular expressions appearing in src/main.py. -/

/-- Pattern RFP colon, anything, four digits, end (main.py line 157). -/
def patRFPNum : RE :=
  .cat (reStr "RFP:")
    (.cat (.star reDot) (.cat reDigit (.cat reDigit (.cat reDigit reDigit))))

/-- Pattern digits only (main.py line 157). -/
def patAllDigits : RE := rePlus reDigit

/-- Pattern digits, dot, optional spaces, lowercase letter, applied to the
lowercased text (main.py line 165). -/
def patNumListLower : RE :=
  .cat (rePlus reDigit) (.cat (chId '.') (.cat (.star reWs) reLowerAlpha))

/-- Pattern digits, dot, digits, optional spaces, letter (main.py
line 167): decimal sub-item such as 2.1 Something. -/
def patDecimalSub : RE :=
  .cat (rePlus reDigit)
    (.cat (chId '.') (.cat (rePlus reDigit) (.cat (.star reWs) reAlpha)))

/-- Pattern digits, dot, optional digits, whitespace, letter (main.py
line 178): numbered heading such as 1.2 Overview. -/
def patNumHeading : RE :=
  .cat (rePlus reDigit)
    (.cat (chId '.') (.cat (reOpt (rePlus reDigit)) (.cat (rePlus reWs) reAlpha)))

/-- Character class for the letters M, K, B. -/
def patMKB : RE := .chr (fun c => c == 'M' || c == 'K' || c == 'B')

/-- Bare currency or metric pattern (main.py line 170). -/
def patCurrency : RE :=
  .cat (reOpt (chId '$'))
    (.cat (rePlus reDigit)
      (.cat (reOpt patMKB)
        (.cat (reOpt (chId '$')) (.cat (rePlus reDigit) (reOpt patMKB)))))

/-- Uppercase-and-spaces then a dollar amount (main.py line 172). -/
def patCapsCurrency : RE :=
  .cat (rePlus (.chr (fun c => c.isUpper || c.isWhitespace)))
    (.cat (chId '$') (.cat (rePlus reDigit) patMKB))

/-! ## Data model

A page, as returned by the text-span extractor, is a list of blocks
(an image block has no lines member and is skipped) together with the
plain concatenated text that page.get_text() returns for the same page.
Spans carry text, font size, a style-flags bitfield (bit 4 is bold) and
the top y coordinate of their bounding box (bbox index 1). -/

/-- One text span: text, font size, style flags, top y coordinate. -/
structure Span where
  text : String
  size : ℚ
  flags : Nat
  y0 : ℚ
deriving DecidableEq

/-- One line of a text block: its spans. -/
abbrev Line := List Span

/-- One block of a page dictionary: an image block (no lines member) or a
text block containing lines of spans. -/
inductive Block
  | image
  | textBlock (lines : List Line)
deriving DecidableEq

/-- One page: the blocks of its dictionary and its plain text. -/
structure Page where
  blocks : List Block
  plainText : String
deriving DecidableEq

/-- A document is its list of pages. -/
abbrev Doc := List Page

/-- A heading candidate (main.py lines 128 to 133). -/
structure Heading where
  text : String
  size : ℚ
  bold : Bool
  page : Nat
deriving DecidableEq

/-- One outline entry of the output record. -/
structure OutlineEntry where
  level : String
  text : String
  page : Nat
deriving DecidableEq

/-- The per-document output record. -/
structure OutputRecord where
  title : String
  outline : List OutlineEntry
deriving DecidableEq

/-! ## Title extraction (main.py lines 31 to 81) -/

/-- Block-level aggregate for the title loop: concatenated text, maximum
font size (initialised to 0), whether any span is bold, minimal top y
coordinate (none models the initial float infinity). -/
structure TitleAgg where
  text : String
  max_size : ℚ
  is_bold : Bool
  y_position : Option ℚ
deriving DecidableEq

/-- Fold one span into the title aggregate (main.py lines 48 to 54). -/
def titleAggSpan (a : TitleAgg) (s : Span) : TitleAgg :=
  { text := a.text ++ s.text
    max_size := max a.max_size s.size
    is_bold := a.is_bold || s.flags.testBit 4
    y_position := some (match a.y_position with
      | none => s.y0
      | some y => min y s.y0) }

/-- Aggregate all spans of all lines of a block for the title loop. -/
def titleAggLines (lines : List Line) : TitleAgg :=
  lines.foldl (fun a line => line.foldl titleAggSpan a) ⟨"", 0, false, none⟩

/-- A page-0 title candidate (main.py lines 58 to 63). -/
structure TitleCand where
  text : String
  size : ℚ
  bold : Bool
  position : Option ℚ
deriving DecidableEq

/-- The title candidate contributed by one block: image blocks are
skipped, and the stripped concatenated text must have length strictly
between 10 and 200 (main.py lines 39 to 63). -/
def blockTitleCand (b : Block) : Option TitleCand :=
  match b with
  | .image => none
  | .textBlock lines =>
    let a := titleAggLines lines
    let t := pyStrip a.text
    if pyLen t > 10 && pyLen t < 200 then
      some ⟨t, a.max_size, a.is_bold, a.y_position⟩
    else none

/-- The title candidates of a page in block order. -/
def titleCandidates (page : Page) : List TitleCand :=
  page.blocks.filterMap blockTitleCand

/-- Whether the minimal top y coordinate is below 200 page units; the
initial float infinity of an empty block compares false. -/
def posLt200 : Option ℚ → Bool
  | none => false
  | some y => y < 200

/-- Additive candidate score (main.py lines 68 to 78). -/
def titleScore (c : TitleCand) : Nat :=
  (if c.bold then 3 else 0) +
  (if c.size > 16 then 2 else if c.size > 14 then 1 else 0) +
  (if posLt200 c.position then 2 else 0)

/-- Python max with a key function: keep the current element unless the
next one scores strictly higher, so the first of several maximal
candidates wins (main.py line 80). -/
def pickBest (first : TitleCand) (rest : List TitleCand) : TitleCand :=
  rest.foldl (fun best c => if titleScore c > titleScore best then c else best) first

/-- Title extraction (main.py lines 31 to 81): empty for an empty
document or when no candidate exists or the best score is not above 2,
else the text of the first best-scoring page-0 candidate. -/
def _extract_title (doc : Doc) : String :=
  match doc with
  | [] => ""
  | first_page :: _ =>
    match titleCandidates first_page with
    | [] => ""
    | c :: cs =>
      let best := pickBest c cs
      if titleScore best > 2 then best.text else ""

/-! ## Heading candidate extraction (main.py lines 101 to 217) -/

/-- Block-level aggregate for the heading loop (main.py lines 109 to
118): like the title aggregate but without the y coordinate. -/
structure BlockAgg where
  text : String
  max_size : ℚ
  is_bold : Bool
deriving DecidableEq

/-- Fold one span into the heading aggregate (main.py lines 113 to 118). -/
def headingAggSpan (a : BlockAgg) (s : Span) : BlockAgg :=
  { text := a.text ++ s.text
    max_size := max a.max_size s.size
    is_bold := a.is_bold || s.flags.testBit 4 }

/-- Aggregate all spans of all lines of a block for the heading loop. -/
def headingAggLines (lines : List Line) : BlockAgg :=
  lines.foldl (fun a line => line.foldl headingAggSpan a) ⟨"", 0, false⟩

/-- Leader-dot runs and web patterns (main.py lines 141 to 146): three
dot runs of lengths 76, 63 and 41, and three web substrings. -/
def garbage_patterns : List String :=
  [⟨List.replicate 76 '.'⟩, ⟨List.replicate 63 '.'⟩, ⟨List.replicate 41 '.'⟩,
   "www.", ".com", ".org"]

/-- Government-form field labels (main.py lines 150 to 153). -/
def form_patterns : List String :=
  ["name of the government servant", "designation", "service", "pay + si + npa",
   "whether permanent or temporary", "home town as recorded",
   "amount of advance required"]

/-- Exclusion rules (main.py lines 137 to 175): any match excludes the
candidate from consideration. -/
def _is_obviously_not_heading (text : String) : Bool :=
  if pyLen text < 3 || pyLen text > 200 then true
  else if garbage_patterns.any (fun p => pyIn p text) then true
  else if form_patterns.any (fun p => pyIn p (pyLower text)) then true
  else if reFull patRFPNum text || reFull patAllDigits text then true
  else if pyLen text > 100 && ['.', ',', ';', ':'].any (fun c => text.data.contains c) then true
  else if pyStartsWith text "â€¢" || pyStartsWith text "-" || pyStartsWith text "*" then true
  else if reStart patNumListLower (pyLower text) then true
  else if reStart patDecimalSub text then true
  else if reFull patCurrency text then true
  else if reStart patCapsCurrency text then true
  else false

/-- Keyword set of the foundation-level course profile (main.py lines
191 to 197). -/
def tech_headings : List String :=
  ["revision history", "table of contents", "acknowledgements",
   "introduction", "references", "trademarks", "documents",
   "intended audience", "career paths", "learning objectives",
   "entry requirements", "structure and course duration",
   "keeping it current", "business outcomes", "content"]

/-- Keyword set of the RFP and digital-library profile (main.py lines
202 to 205). -/
def business_headings : List String :=
  ["background", "summary", "milestones", "approach",
   "evaluation", "appendix", "terms of reference"]

/-- Inclusion rules (main.py lines 177 to 217), evaluated in order with
the first match winning; the last four rules are profile keyword rules
over the lowercased three-page document text. -/
def _is_likely_heading (text : String) (size : ℚ) (is_bold : Bool)
    (doc_text_lower : String) : Bool :=
  if reStart patNumHeading text then true
  else if pyIsUpper text && pyLen text > 5 then true
  else if is_bold && size > 14 then true
  else if size > 16 then true
  else if pyIn "foundation level" doc_text_lower then
    tech_headings.any (fun h => pyIn h (pyLower text))
  else if pyIn "rfp" doc_text_lower || pyIn "digital library" doc_text_lower then
    business_headings.any (fun h => pyIn h (pyLower text))
  else if pyIn "pathway options" doc_text_lower || pyIn "stem pathways" doc_text_lower then
    pyIn "pathway options" (pyLower text)
  else if pyIn "hope to see you" doc_text_lower || pyIn "rsvp" doc_text_lower then
    pyIn "hope to see you there" (pyLower text)
  else false

/-- The heading candidate contributed by one block (main.py lines 105
to 133): image blocks are skipped; the stripped text must be nonempty
and of length between 3 and 200, must not be obviously not a heading,
and must be likely a heading. -/
def blockHeading (doc_text_lower : String) (page_num : Nat) (b : Block) :
    Option Heading :=
  match b with
  | .image => none
  | .textBlock lines =>
    let a := headingAggLines lines
    let t := pyStrip a.text
    if t == "" || pyLen t < 3 || pyLen t > 200 then none
    else if _is_obviously_not_heading t then none
    else if _is_likely_heading t a.max_size a.is_bold doc_text_lower then
      some ⟨t, a.max_size, a.is_bold, page_num⟩
    else none

/-- Heading candidates of one page in block order (main.py lines 101 to
135). -/
def _extract_headings_from_page (page : Page) (page_num : Nat)
    (doc_text_lower : String) : List Heading :=
  page.blocks.filterMap (blockHeading doc_text_lower page_num)

/-! ## Document-profile conditions (main.py lines 91, 201, 209, 213,
231, 237, 248) -/

/-- Form-document condition (main.py line 91). -/
def formCond (dt : String) : Bool :=
  pyIn "application form" dt || pyIn "government servant" dt

/-- Pathway-flyer condition (main.py lines 209 and 231). -/
def pathwayCond (dt : String) : Bool :=
  pyIn "pathway options" dt || pyIn "stem pathways" dt

/-- RSVP-invite condition (main.py lines 213 and 237). -/
def rsvpCond (dt : String) : Bool :=
  pyIn "hope to see you" dt || pyIn "rsvp" dt

/-- RFP and digital-library condition (main.py lines 201 and 248). -/
def rfpCond (dt : String) : Bool :=
  pyIn "rfp" dt || pyIn "digital library" dt

/-! ## Heading filter and leveler (main.py lines 219 to 266) -/

/-- Deduplicate headings by stripped text, keeping the first occurrence
in discovery order; the seen accumulator models the Python set (main.py
lines 223 to 229). -/
def dedupHeadings (seen : List String) : List Heading → List Heading
  | [] => []
  | h :: rest =>
    if seen.contains (pyStrip h.text) then dedupHeadings seen rest
    else h :: dedupHeadings (pyStrip h.text :: seen) rest

/-- Level of a heading under the RFP and digital-library profile, by
case-insensitive keyword membership (main.py lines 248 to 254). -/
def rfpLevel (text : String) : String :=
  if ["summary", "background", "milestones", "approach", "evaluation"].any
      (fun s => pyIn s (pyLower text)) then "H1"
  else if ["appendix", "terms of reference", "membership"].any
      (fun s => pyIn s (pyLower text)) then "H2"
  else "H3"

/-- Level of a heading by font size (main.py lines 256 to 261). -/
def sizeLevel (size : ℚ) : String :=
  if size > 16 then "H1" else if size > 14 then "H2" else "H3"

/-- Insert an entry after every entry of strictly smaller page number
and before the first of greater or equal page number. -/
def insertByPage (e : OutlineEntry) : List OutlineEntry → List OutlineEntry
  | [] => [e]
  | x :: xs => if x.page < e.page then x :: insertByPage e xs else e :: x :: xs

/-- Stable ascending sort by page number.  Python list.sort with a page
key is a stable ascending sort, and a stable sort is extensionally
unique, so this insertion sort computes exactly its result (main.py
line 265). -/
def sortByPage : List OutlineEntry → List OutlineEntry
  | [] => []
  | x :: xs => insertByPage x (sortByPage xs)

/-- Heading filter and leveler (main.py lines 219 to 266): deduplicate,
special-case the pathway-flyer and RSVP-invite profiles into a single
forced H1 page-0 entry or nothing, otherwise level every unique
candidate and sort by page. -/
def _filter_headings (headings : List Heading) (doc_text_lower : String) :
    List OutlineEntry :=
  if headings.isEmpty then []
  else if pathwayCond doc_text_lower then
    match (dedupHeadings [] headings).find?
        (fun h => pyIn "pathway options" (pyLower h.text)) with
    | some h => [⟨"H1", h.text, 0⟩]
    | none => []
  else if rsvpCond doc_text_lower then
    match (dedupHeadings [] headings).find?
        (fun h => pyIn "hope to see you there" (pyLower h.text)) with
    | some h => [⟨"H1", h.text, 0⟩]
    | none => []
  else
    sortByPage ((dedupHeadings [] headings).map fun h =>
      ⟨if rfpCond doc_text_lower then rfpLevel h.text else sizeLevel h.size,
       h.text, h.page⟩)

/-! ## Whole-document heading extraction (main.py lines 83 to 99) -/

/-- Lowercased concatenation of the plain text of the first
min(3, pageCount) pages (main.py lines 86 to 89). -/
def docTextLower (doc : Doc) : String :=
  pyLower (String.join ((doc.take 3).map Page.plainText))

/-- Collect the heading candidates of every page in page order, starting
at the given page number (main.py lines 94 to 97). -/
def collectFrom (doc_text_lower : String) : Nat → List Page → List Heading
  | _, [] => []
  | n, p :: ps =>
    _extract_headings_from_page p n doc_text_lower ++ collectFrom doc_text_lower (n + 1) ps

/-- All heading candidates of a document in discovery order. -/
def collectHeadings (doc : Doc) (doc_text_lower : String) : List Heading :=
  collectFrom doc_text_lower 0 doc

/-- Heading extraction for a whole document (main.py lines 83 to 99):
the form-document condition short-circuits to an empty outline before
any per-page processing. -/
def _extract_headings (doc : Doc) : List OutlineEntry :=
  if formCond (docTextLower doc) then []
  else _filter_headings (collectHeadings doc (docTextLower doc)) (docTextLower doc)

/-- The page-0 title candidate list inspected by the title scorer: empty
for an empty document. -/
def titleCands (doc : Doc) : List TitleCand :=
  match doc with
  | [] => []
  | first_page :: _ => titleCandidates first_page

/-- The default record returned on failure (main.py line 29). -/
def defaultRecord : OutputRecord := ⟨"", []⟩

/-- The record produced for a successfully opened document. -/
def pipelineRecord (doc : Doc) : OutputRecord :=
  ⟨_extract_title doc, _extract_headings doc⟩

/-! ## The per-document entry point and its error handling (main.py
lines 19 to 29)

Opening the document and each extraction step may raise (the PDF library
throws on malformed input); a step is modelled as an Except value.  The
try block runs open, title extraction, heading extraction and then
doc.close in order; the except handler catches any exception and returns
the default record.  The trace variant additionally records whether a
document handle was obtained and whether doc.close was executed before
returning: the source calls doc.close only on the success path, and the
except handler returns without closing. -/

/-- extract_outline (main.py lines 19 to 29): result as seen by the
caller. -/
def extract_outline (open_result : Except String Doc)
    (title_step : Doc → Except String String)
    (headings_step : Doc → Except String (List OutlineEntry)) : OutputRecord :=
  match open_result with
  | .error _ => defaultRecord
  | .ok doc =>
    match title_step doc with
    | .error _ => defaultRecord
    | .ok title =>
      match headings_step doc with
      | .error _ => defaultRecord
      | .ok outline => ⟨title, outline⟩

/-- An execution trace of extract_outline: the returned record, whether
a document handle was opened, and whether it was closed before return. -/
structure ExecTrace where
  record : OutputRecord
  opened : Bool
  closed : Bool
deriving DecidableEq

/-- extract_outline with its resource behaviour made explicit: doc.close
(main.py line 24) runs only after both extraction steps succeed; an
exception in either step jumps to the handler (main.py line 27), which
returns the default record without closing the handle. -/
def extract_outline_trace (open_result : Except String Doc)
    (title_step : Doc → Except String String)
    (headings_step : Doc → Except String (List OutlineEntry)) : ExecTrace :=
  match open_result with
  | .error _ => ⟨defaultRecord, false, false⟩
  | .ok doc =>
    match title_step doc with
    | .error _ => ⟨defaultRecord, true, false⟩
    | .ok title =>
      match headings_step doc with
      | .error _ => ⟨defaultRecord, true, false⟩
      | .ok outline => ⟨⟨title, outline⟩, true, true⟩

/-- The title step when the library raises no exception. -/
def pureTitleStep : Doc → Except String String :=
  fun d => .ok (_extract_title d)

/-- The heading step when the library raises no exception. -/
def pureHeadingsStep : Doc → Except String (List OutlineEntry) :=
  fun d => .ok (_extract_headings d)

/-- A title step whose text extraction raises, as the library does on a
corrupt page tree. -/
def failingTitleStep : Doc → Except String String :=
  fun _ => .error "text extraction failed"

/-! ## Concrete example documents -/

/-- A one-page document whose only block is the uppercase text
INTRODUCTION in a small font: its outline has exactly one entry. -/
def exIntroDoc : Doc :=
  [⟨[Block.textBlock [[⟨"INTRODUCTION", 12, 0, 300⟩]]], "nothing special here"⟩]

/-- A one-page document whose only block is a bold, large, high-on-page
span reading 1.2 Scope, with no profile keyword in the page text. -/
def exScopeDoc : Doc :=
  [⟨[Block.textBlock [[⟨"1.2 Scope", 18, 16, 50⟩]]], "hello world"⟩]

/-- A one-page document with one low-scoring title candidate. -/
def exPlainDoc : Doc :=
  [⟨[Block.textBlock [[⟨"a plain sentence here", 10, 0, 400⟩]]], "hello world"⟩]

/-- A document whose first-page text contains application form. -/
def exFormDoc : Doc :=
  [⟨[Block.textBlock [[⟨"Grant of LTC advance", 20, 16, 40⟩]]],
    "Application Form for grant of LTC advance"⟩]

/-- A pathway-flyer document with one matching candidate. -/
def exPathwayDoc : Doc :=
  [⟨[Block.textBlock [[⟨"PATHWAY OPTIONS", 20, 16, 50⟩]]],
    "Explore PATHWAY OPTIONS for students"⟩]

/-- A heading candidate list with the single text Executive Summary. -/
def exRfpHeadings : List Heading := [⟨"Executive Summary", 12, false, 2⟩]

/-- A lowercased document text containing rfp and none of the pathway,
RSVP or form keywords. -/
def exRfpText : String := "request for proposal rfp for a project"

/-- Two heading candidates with the same text on different pages. -/
def exDupHeadings : List Heading :=
  [⟨"Intro", 10, false, 0⟩, ⟨"Intro", 12, true, 1⟩]

/-! ## Helper lemmas about the sorting step -/

theorem insertByPage_perm (e : OutlineEntry) (l : List OutlineEntry) :
    List.Perm (insertByPage e l) (e :: l) := by
  induction l with
  | nil => rfl
  | cons x xs ih =>
    by_cases h : x.page < e.page
    · simp only [insertByPage, if_pos h]
      exact (ih.cons x).trans (List.Perm.swap e x xs)
    · simp only [insertByPage, if_neg h]
      exact List.Perm.refl _

theorem sortByPage_perm (l : List OutlineEntry) : List.Perm (sortByPage l) l := by
  induction l with
  | nil => rfl
  | cons x xs ih => exact (insertByPage_perm x (sortByPage xs)).trans (ih.cons x)

theorem pairwise_insertByPage {l : List OutlineEntry} (e : OutlineEntry)
    (h : l.Pairwise fun a b => a.page ≤ b.page) :
    (insertByPage e l).Pairwise fun a b => a.page ≤ b.page := by
  induction l with
  | nil => simp [insertByPage]
  | cons x xs ih =>
    rw [List.pairwise_cons] at h
    by_cases hx : x.page < e.page
    · simp only [insertByPage, if_pos hx]
      rw [List.pairwise_cons]
      refine ⟨?_, ih h.2⟩
      intro y hy
      rcases List.mem_cons.mp ((insertByPage_perm e xs).mem_iff.mp hy) with rfl | hyxs
      · exact Nat.le_of_lt hx
      · exact h.1 y hyxs
    · simp only [insertByPage, if_neg hx]
      have hex : e.page ≤ x.page := Nat.le_of_not_lt hx
      rw [List.pairwise_cons]
      refine ⟨?_, List.pairwise_cons.mpr ⟨h.1, h.2⟩⟩
      intro y hy
      rcases List.mem_cons.mp hy with rfl | hyxs
      · exact hex
      · exact hex.trans (h.1 y hyxs)

theorem pairwise_sortByPage (l : List OutlineEntry) :
    (sortByPage l).Pairwise fun a b => a.page ≤ b.page := by
  induction l with
  | nil => simp [sortByPage]
  | cons x xs ih => exact pairwise_insertByPage x ih

theorem filter_insertByPage (e : OutlineEntry) (l : List OutlineEntry) (p : Nat) :
    (insertByPage e l).filter (fun x => x.page == p) =
      if e.page = p then e :: l.filter (fun x => x.page == p)
      else l.filter (fun x => x.page == p) := by
  induction l with
  | nil =>
    by_cases hep : e.page = p
    · have hb : (e.page == p) = true := beq_iff_eq.mpr hep
      simp [insertByPage, List.filter, hb, hep]
    · have hb : (e.page == p) = false := beq_eq_false_iff_ne.mpr hep
      simp [insertByPage, List.filter, hb, hep]
  | cons x xs ih =>
    by_cases hx : x.page < e.page
    · simp only [insertByPage, if_pos hx]
      by_cases hep : e.page = p
      · have hxp : ¬ x.page = p := by omega
        simp [List.filter_cons, hxp, hep, ih]
      · simp [List.filter_cons, ih, hep]
    · simp only [insertByPage, if_neg hx]
      by_cases hep : e.page = p <;> simp [List.filter_cons, hep]

theorem filter_sortByPage (l : List OutlineEntry) (p : Nat) :
    (sortByPage l).filter (fun x => x.page == p) = l.filter (fun x => x.page == p) := by
  induction l with
  | nil => rfl
  | cons x xs ih =>
    show (insertByPage x (sortByPage xs)).filter _ = _
    rw [filter_insertByPage]
    by_cases hxp : x.page = p
    · simp [List.filter_cons, hxp, ih]
    · simp [List.filter_cons, hxp, ih]

/-! ## Helper lemmas about deduplication -/

theorem dedupHeadings_sublist (seen : List String) (hs : List Heading) :
    (dedupHeadings seen hs).Sublist hs := by
  induction hs generalizing seen with
  | nil => simp [dedupHeadings]
  | cons h rest ih =>
    simp only [dedupHeadings]
    by_cases hc : seen.contains (pyStrip h.text) = true
    · rw [if_pos hc]
      exact (ih seen).cons h
    · rw [if_neg hc]
      exact (ih _).cons₂ h

theorem dedupHeadings_spec (seen : List String) (hs : List Heading) :
    ∀ x ∈ dedupHeadings seen hs,
      seen.contains (pyStrip x.text) = false ∧
      hs.find? (fun h => pyStrip h.text == pyStrip x.text) = some x := by
  induction hs generalizing seen with
  | nil => intro x hx; simp [dedupHeadings] at hx
  | cons h rest ih =>
    intro x hx
    simp only [dedupHeadings] at hx
    by_cases hc : seen.contains (pyStrip h.text) = true
    · rw [if_pos hc] at hx
      obtain ⟨hnotin, hfind⟩ := ih seen x hx
      have hne : (pyStrip h.text == pyStrip x.text) = false := by
        rw [beq_eq_false_iff_ne]
        intro heq
        rw [heq] at hc
        rw [hc] at hnotin
        exact absurd hnotin (by simp)
      refine ⟨hnotin, ?_⟩
      rw [List.find?_cons, hne]
      exact hfind
    · rw [if_neg hc] at hx
      rcases List.mem_cons.mp hx with rfl | hxrest
      · refine ⟨Bool.not_eq_true _ |>.mp hc, ?_⟩
        rw [List.find?_cons, beq_self_eq_true]
      · obtain ⟨hnotin, hfind⟩ := ih _ x hxrest
        rw [List.contains_cons] at hnotin
        rw [Bool.or_eq_false_iff] at hnotin
        have hne : (pyStrip h.text == pyStrip x.text) = false := by
          rw [beq_eq_false_iff_ne]
          exact fun heq => (beq_eq_false_iff_ne.mp hnotin.1) heq.symm
        refine ⟨hnotin.2, ?_⟩
        rw [List.find?_cons, hne]
        exact hfind

theorem dedupHeadings_pairwise (seen : List String) (hs : List Heading) :
    (dedupHeadings seen hs).Pairwise fun a b => pyStrip a.text ≠ pyStrip b.text := by
  induction hs generalizing seen with
  | nil => simp [dedupHeadings]
  | cons h rest ih =>
    simp only [dedupHeadings]
    by_cases hc : seen.contains (pyStrip h.text) = true
    · rw [if_pos hc]
      exact ih seen
    · rw [if_neg hc]
      rw [List.pairwise_cons]
      refine ⟨?_, ih _⟩
      intro y hy
      have hnotin := (dedupHeadings_spec _ _ y hy).1
      rw [List.contains_cons, Bool.or_eq_false_iff] at hnotin
      exact fun heq => (beq_eq_false_iff_ne.mp hnotin.1) heq.symm

/-! ## Helper lemmas about candidate extraction -/

theorem blockHeading_not_obvious {dt : String} {n : Nat} {b : Block} {h : Heading}
    (hb : blockHeading dt n b = some h) :
    _is_obviously_not_heading h.text = false := by
  cases b with
  | image => exact absurd hb (by simp [blockHeading])
  | textBlock lines =>
    simp only [blockHeading] at hb
    split at hb
    · exact absurd hb (by simp)
    · split at hb
      · exact absurd hb (by simp)
      · split at hb
        · rename_i hc1 hc2 hc3
          cases hb
          exact Bool.not_eq_true _ |>.mp hc2
        · exact absurd hb (by simp)

theorem mem_collectFrom {dt : String} {h : Heading} :
    ∀ (n : Nat) (pages : List Page), h ∈ collectFrom dt n pages →
      ∃ p ∈ pages, ∃ k, h ∈ _extract_headings_from_page p k dt := by
  intro n pages
  induction pages generalizing n with
  | nil => intro hx; simp [collectFrom] at hx
  | cons p ps ih =>
    intro hx
    simp only [collectFrom] at hx
    rcases List.mem_append.mp hx with h1 | h2
    · exact ⟨p, List.mem_cons_self p ps, n, h1⟩
    · obtain ⟨q, hq, k, hk⟩ := ih (n + 1) h2
      exact ⟨q, List.mem_cons_of_mem p hq, k, hk⟩

theorem mem_collect_not_obvious {doc : Doc} {dt : String} {h : Heading}
    (hm : h ∈ collectHeadings doc dt) :
    _is_obviously_not_heading h.text = false := by
  obtain ⟨p, _, k, hk⟩ := mem_collectFrom 0 doc hm
  unfold _extract_headings_from_page at hk
  rw [List.mem_filterMap] at hk
  obtain ⟨b, _, hb⟩ := hk
  exact blockHeading_not_obvious hb

theorem filter_text_from_dedup {hs : List Heading} {dt : String} {e : OutlineEntry}
    (he : e ∈ _filter_headings hs dt) :
    ∃ h ∈ dedupHeadings [] hs, e.text = h.text := by
  unfold _filter_headings at he
  split at he
  · simp at he
  · split at he
    · split at he
      · rename_i h' hfind
        rcases List.mem_singleton.mp he with rfl
        exact ⟨h', List.mem_of_find?_eq_some hfind, rfl⟩
      · simp at he
    · split at he
      · split at he
        · rename_i h' hfind
          rcases List.mem_singleton.mp he with rfl
          exact ⟨h', List.mem_of_find?_eq_some hfind, rfl⟩
        · simp at he
      · have hmem := (sortByPage_perm _).mem_iff.mp he
        rw [List.mem_map] at hmem
        obtain ⟨h', hh', rfl⟩ := hmem
        exact ⟨h', hh', rfl⟩

theorem mem_outline_not_obvious {doc : Doc} {e : OutlineEntry}
    (he : e ∈ _extract_headings doc) :
    _is_obviously_not_heading e.text = false := by
  unfold _extract_headings at he
  split at he
  · simp at he
  · obtain ⟨h, hh, hte⟩ := filter_text_from_dedup he
    have hh2 : h ∈ collectHeadings doc (docTextLower doc) :=
      (dedupHeadings_sublist _ _).subset hh
    rw [hte]
    exact mem_collect_not_obvious hh2

theorem obvious_of_form_pattern {t q : String} (hq : q ∈ form_patterns)
    (hin : pyIn q (pyLower t) = true) :
    _is_obviously_not_heading t = true := by
  have hany : form_patterns.any (fun p => pyIn p (pyLower t)) = true :=
    List.any_eq_true.mpr ⟨q, hq, hin⟩
  unfold _is_obviously_not_heading
  split_ifs <;> simp_all

theorem titleCand_length {page : Page} {c : TitleCand}
    (hc : c ∈ titleCandidates page) :
    10 < pyLen c.text ∧ pyLen c.text < 200 := by
  unfold titleCandidates at hc
  rw [List.mem_filterMap] at hc
  obtain ⟨b, _, hb⟩ := hc
  cases b with
  | image => exact absurd hb (by simp [blockTitleCand])
  | textBlock lines =>
    simp only [blockTitleCand] at hb
    split at hb
    · rename_i hcond
      cases hb
      rw [Bool.and_eq_true, decide_eq_true_eq, decide_eq_true_eq] at hcond
      exact hcond
    · exact absurd hb (by simp)

/-! ## The first-seen maximum computed by pickBest -/

theorem pickBest_cons (f x : TitleCand) (xs : List TitleCand) :
    pickBest f (x :: xs) =
      pickBest (if titleScore x > titleScore f then x else f) xs := rfl

theorem pickBest_spec (first : TitleCand) (rest : List TitleCand) :
    ∃ l₁ l₂, first :: rest = l₁ ++ pickBest first rest :: l₂ ∧
      (∀ c ∈ first :: rest, titleScore c ≤ titleScore (pickBest first rest)) ∧
      (∀ c ∈ l₁, titleScore c < titleScore (pickBest first rest)) := by
  induction rest generalizing first with
  | nil =>
    refine ⟨[], [], rfl, ?_, by simp⟩
    intro c hc
    rw [show pickBest first [] = first from rfl]
    rcases List.mem_singleton.mp hc with rfl
    exact Nat.le_refl _
  | cons x xs ih =>
    rw [pickBest_cons]
    by_cases hgt : titleScore x > titleScore first
    · rw [if_pos hgt]
      obtain ⟨m₁, m₂, hdec, hmax, hstrict⟩ := ih x
      cases m₁ with
      | nil =>
        rw [List.nil_append] at hdec
        injection hdec with h1 h2
        refine ⟨[first], m₂, ?_, ?_, ?_⟩
        · simp only [List.cons_append, List.nil_append]
          rw [← h1, ← h2]
        · intro c hc
          rcases List.mem_cons.mp hc with rfl | hc2
          · rw [← h1]
            exact Nat.le_of_lt hgt
          · exact hmax c hc2
        · intro c hc
          rcases List.mem_singleton.mp hc with rfl
          rw [← h1]
          exact hgt
      | cons a2 m₁t =>
        rw [List.cons_append] at hdec
        injection hdec with h1 h2
        have hxlt : titleScore x < titleScore (pickBest x xs) := by
          have := hstrict a2 (List.mem_cons_self a2 m₁t)
          rw [← h1] at this
          exact this
        refine ⟨first :: x :: m₁t, m₂, ?_, ?_, ?_⟩
        · simp only [List.cons_append]
          rw [← h2]
        · intro c hc
          rcases List.mem_cons.mp hc with rfl | hc2
          · exact Nat.le_of_lt (Nat.lt_trans hgt hxlt)
          · exact hmax c hc2
        · intro c hc
          rcases List.mem_cons.mp hc with rfl | hc3
          · exact Nat.lt_trans hgt hxlt
          · rcases List.mem_cons.mp hc3 with rfl | hc4
            · exact hxlt
            · exact hstrict c (List.mem_cons_of_mem a2 hc4)
    · rw [if_neg hgt]
      have hle : titleScore x ≤ titleScore first := Nat.le_of_not_lt hgt
      obtain ⟨m₁, m₂, hdec, hmax, hstrict⟩ := ih first
      cases m₁ with
      | nil =>
        rw [List.nil_append] at hdec
        injection hdec with h1 h2
        refine ⟨[], x :: xs, ?_, ?_, by simp⟩
        · simp only [List.nil_append]
          rw [← h1]
        · intro c hc
          rcases List.mem_cons.mp hc with rfl | hc2
          · rw [← h1]
          · rcases List.mem_cons.mp hc2 with rfl | hc3
            · rw [← h1]
              exact hle
            · exact hmax c (List.mem_cons_of_mem first hc3)
      | cons a2 m₁t =>
        rw [List.cons_append] at hdec
        injection hdec with h1 h2
        have hflt : titleScore first < titleScore (pickBest first xs) := by
          have := hstrict a2 (List.mem_cons_self a2 m₁t)
          rw [← h1] at this
          exact this
        refine ⟨first :: x :: m₁t, m₂, ?_, ?_, ?_⟩
        · simp only [List.cons_append]
          rw [← h2]
        · intro c hc
          rcases List.mem_cons.mp hc with rfl | hc2
          · exact Nat.le_of_lt hflt
          · rcases List.mem_cons.mp hc2 with rfl | hc3
            · exact Nat.le_of_lt (Nat.lt_of_le_of_lt hle hflt)
            · exact hmax c (List.mem_cons_of_mem first hc3)
        · intro c hc
          rcases List.mem_cons.mp hc with rfl | hc3
          · exact hflt
          · rcases List.mem_cons.mp hc3 with rfl | hc4
            · exact Nat.lt_of_le_of_lt hle hflt
            · exact hstrict c (List.mem_cons_of_mem a2 hc4)

end PDFOutline

namespace PDFOutline

/-! ## Two pairwise facts about the filter and leveler -/

theorem filter_headings_pairwise_text (hs : List Heading) (dt : String) :
    (_filter_headings hs dt).Pairwise fun a b => a.text ≠ b.text := by
  unfold _filter_headings
  split
  · simp
  · split
    · split
      · simp
      · simp
    · split
      · split
        · simp
        · simp
      · have huniq := dedupHeadings_pairwise [] hs
        have hmapped : (((dedupHeadings [] hs)).map fun h =>
            (⟨if rfpCond dt then rfpLevel h.text else sizeLevel h.size,
              h.text, h.page⟩ : OutlineEntry)).Pairwise
            (fun a b => a.text ≠ b.text) := by
          rw [List.pairwise_map]
          refine huniq.imp ?_
          intro a b hab heq
          exact hab (congrArg pyStrip heq)
        exact ((sortByPage_perm _).pairwise_iff
          (fun {a b} h => h.symm)).mpr hmapped

theorem filter_headings_pairwise_page (hs : List Heading) (dt : String) :
    (_filter_headings hs dt).Pairwise fun a b => a.page ≤ b.page := by
  unfold _filter_headings
  split
  · simp
  · split
    · split
      · simp
      · simp
    · split
      · split
        · simp
        · simp
      · exact pairwise_sortByPage _

/-! ## Claims -/

/-- C1 counterexample: the text 1.2 Scope matches the numbered-heading
inclusion pattern of rule 1, yet it also matches the decimal sub-item
exclusion pattern, the exclusion rules run first, and on a concrete
document whose only block candidate is a bold large-font span 1.2 Scope
with no profile short-circuit and no duplicate, the output outline is
empty rather than containing a heading entry. -/
theorem claim_C1_counterexample :
    reStart patNumHeading "1.2 Scope" = true ∧
    reStart patDecimalSub "1.2 Scope" = true ∧
    _is_obviously_not_heading "1.2 Scope" = true ∧
    _extract_headings exScopeDoc = [] :=
  ⟨by decide, by decide, by decide, by decide⟩

/-- C1 amended: a block candidate whose stripped text is 1.2 Scope is
excluded by the decimal sub-item exclusion pattern inside
_is_obviously_not_heading, which is evaluated before the inclusion
rules, so inclusion rule 1 never sees it and no document's outline
contains an entry with that text. -/
theorem claim_C1_amended (doc : Doc) (e : OutlineEntry)
    (he : e ∈ _extract_headings doc) : e.text ≠ "1.2 Scope" := by
  intro hx
  have hno := mem_outline_not_obvious he
  rw [hx] at hno
  exact absurd hno (by decide)

/-- C1 witness: the amended claim applied to a concrete document whose
outline contains the entry INTRODUCTION. -/
theorem claim_C1_amended_witness :
    OutlineEntry.text ⟨"H3", "INTRODUCTION", 0⟩ ≠ "1.2 Scope" :=
  claim_C1_amended exIntroDoc ⟨"H3", "INTRODUCTION", 0⟩ (by decide)

/-- C2: whenever the lowercased concatenation of the first
min(3, pageCount) pages' plain text contains application form or
government servant, the produced outline is empty (heading extraction
short-circuits before any per-page processing), regardless of the
title. -/
theorem claim_C2 (doc : Doc)
    (h : pyIn "application form" (docTextLower doc) = true ∨
         pyIn "government servant" (docTextLower doc) = true) :
    (pipelineRecord doc).outline = [] := by
  have hf : formCond (docTextLower doc) = true := by
    rcases h with h | h <;> simp [formCond, h]
  show _extract_headings doc = []
  unfold _extract_headings
  rw [if_pos hf]

/-- C2 witness: a concrete document whose first page text contains
application form has an empty outline although its title is nonempty. -/
theorem claim_C2_witness : (pipelineRecord exFormDoc).outline = [] :=
  claim_C2 exFormDoc (Or.inl (by decide))

/-- C5: the per-document entry point is total from the caller's
perspective; whenever opening the document or either extraction step
raises, the exception is caught and the default empty record is
returned, so no exception escapes. -/
theorem claim_C5 (open_result : Except String Doc)
    (title_step : Doc → Except String String)
    (headings_step : Doc → Except String (List OutlineEntry))
    (h : (∃ msg, open_result = .error msg) ∨
         ∃ d, open_result = .ok d ∧
           ((∃ msg, title_step d = .error msg) ∨
            (∃ msg, headings_step d = .error msg))) :
    extract_outline open_result title_step headings_step = defaultRecord := by
  rcases h with ⟨msg, hmsg⟩ | ⟨d, hd, hfail⟩
  · rw [hmsg]
    rfl
  · rw [hd]
    show (match title_step d with
      | .error _ => defaultRecord
      | .ok title =>
        match headings_step d with
        | .error _ => defaultRecord
        | .ok outline => ⟨title, outline⟩) = defaultRecord
    rcases hfail with ⟨msg, hmsg⟩ | ⟨msg, hmsg⟩
    · rw [hmsg]
    · cases htd : title_step d with
      | error m => rfl
      | ok t => rw [hmsg]

/-- C5 witness: the entry point applied to a failed open returns the
default empty record. -/
theorem claim_C5_witness :
    extract_outline (.error "cannot open") pureTitleStep pureHeadingsStep
      = defaultRecord :=
  claim_C5 _ _ _ (Or.inl ⟨"cannot open", rfl⟩)

/-- C6 (code bug): the source calls doc.close only on the success path.
On a concrete document the success trace closes the handle, but when
title extraction raises after a successful open, control jumps to the
handler, which returns the default record without closing: the handle
is opened and not closed before the function returns, contradicting the
claim that resources are released on every exit path. -/
theorem claim_C6_code_bug :
    (extract_outline_trace (.ok exIntroDoc) pureTitleStep pureHeadingsStep).closed
      = true ∧
    (extract_outline_trace (.ok exIntroDoc) failingTitleStep pureHeadingsStep).opened
      = true ∧
    (extract_outline_trace (.ok exIntroDoc) failingTitleStep pureHeadingsStep).closed
      = false :=
  ⟨by decide, by decide, by decide⟩

/-- C8: no two entries of any output outline have identical text;
moreover the deduplication step keeps a sublist of the candidates (so
discovery order is preserved), its stripped texts are pairwise distinct,
and every kept element is the first occurrence of its stripped text in
the candidate list. -/
theorem claim_C8 :
    (∀ doc : Doc, (_extract_headings doc).Pairwise fun a b => a.text ≠ b.text) ∧
    (∀ hs : List Heading,
      (dedupHeadings [] hs).Sublist hs ∧
      ((dedupHeadings [] hs).Pairwise fun a b => pyStrip a.text ≠ pyStrip b.text) ∧
      (∀ x ∈ dedupHeadings [] hs,
        hs.find? (fun h => pyStrip h.text == pyStrip x.text) = some x)) := by
  constructor
  · intro doc
    unfold _extract_headings
    split
    · simp
    · exact filter_headings_pairwise_text _ _
  · intro hs
    exact ⟨dedupHeadings_sublist [] hs, dedupHeadings_pairwise [] hs,
      fun x hx => (dedupHeadings_spec [] hs x hx).2⟩

/-- C8 witness: on a concrete duplicated candidate list, the kept
element is the first occurrence of its stripped text. -/
theorem claim_C8_witness :
    exDupHeadings.find?
        (fun h => pyStrip h.text == pyStrip (Heading.text ⟨"Intro", 10, false, 0⟩))
      = some ⟨"Intro", 10, false, 0⟩ :=
  (claim_C8.2 exDupHeadings).2.2 ⟨"Intro", 10, false, 0⟩ (by decide)

/-- C9: the page field is non-decreasing across every output outline,
and the sorting step is a stable ascending sort by page: for every page
number, the entries carrying it appear in the sorted result exactly as
in the pre-sort discovery-ordered list. -/
theorem claim_C9 :
    (∀ doc : Doc, (_extract_headings doc).Pairwise fun a b => a.page ≤ b.page) ∧
    (∀ (l : List OutlineEntry) (p : Nat),
      (sortByPage l).filter (fun x => x.page == p)
        = l.filter (fun x => x.page == p)) := by
  constructor
  · intro doc
    unfold _extract_headings
    split
    · simp
    · exact filter_headings_pairwise_page _ _
  · exact filter_sortByPage

/-- C10: for every document of every profile, a candidate containing a
form-label substring is excluded before the inclusion rules run, so no
outline entry's text contains service or designation case-insensitively. -/
theorem claim_C10 (doc : Doc) (e : OutlineEntry)
    (he : e ∈ _extract_headings doc) :
    pyIn "service" (pyLower e.text) = false ∧
    pyIn "designation" (pyLower e.text) = false := by
  have hno := mem_outline_not_obvious he
  constructor
  · cases hsv : pyIn "service" (pyLower e.text) with
    | false => rfl
    | true =>
      have hob := obvious_of_form_pattern (show "service" ∈ form_patterns by decide) hsv
      rw [hno] at hob
      exact absurd hob (by simp)
  · cases hsv : pyIn "designation" (pyLower e.text) with
    | false => rfl
    | true =>
      have hob := obvious_of_form_pattern
        (show "designation" ∈ form_patterns by decide) hsv
      rw [hno] at hob
      exact absurd hob (by simp)

/-- C10 witness: the claim applied to a concrete document whose outline
contains the entry INTRODUCTION. -/
theorem claim_C10_witness :
    pyIn "service" (pyLower (OutlineEntry.text ⟨"H3", "INTRODUCTION", 0⟩)) = false ∧
    pyIn "designation" (pyLower (OutlineEntry.text ⟨"H3", "INTRODUCTION", 0⟩)) = false :=
  claim_C10 exIntroDoc ⟨"H3", "INTRODUCTION", 0⟩ (by decide)

/-- Unfolding of the title extractor on a nonempty document. -/
theorem extract_title_cons (p : Page) (rest : List Page) :
    _extract_title (p :: rest) =
      match titleCandidates p with
      | [] => ""
      | c :: cs =>
        if titleScore (pickBest c cs) > 2 then (pickBest c cs).text else "" := rfl

/-- C3: the title is empty when no page-0 block candidate scores above 2
under the additive score (+3 bold, +2 if max font size above 16 else +1
if above 14, +2 if minimal top y coordinate below 200); otherwise it is
the stripped text, of length strictly between 10 and 200, of the
highest-scoring candidate, the first-seen candidate winning ties: all
candidates strictly before the chosen one score strictly less, and none
scores more. -/
theorem claim_C3 (doc : Doc) :
    ((∀ c ∈ titleCands doc, titleScore c ≤ 2) → _extract_title doc = "") ∧
    (∀ c ∈ titleCands doc, 2 < titleScore c →
      ∃ l₁ best l₂, titleCands doc = l₁ ++ best :: l₂ ∧
        _extract_title doc = best.text ∧
        10 < pyLen best.text ∧ pyLen best.text < 200 ∧
        (∀ d ∈ titleCands doc, titleScore d ≤ titleScore best) ∧
        (∀ d ∈ l₁, titleScore d < titleScore best)) := by
  cases doc with
  | nil =>
    refine ⟨fun _ => rfl, ?_⟩
    intro c hc
    exact absurd hc (by simp [titleCands])
  | cons p rest =>
    cases hcs : titleCandidates p with
    | nil =>
      constructor
      · intro _
        rw [extract_title_cons, hcs]
      · intro c hc
        simp only [titleCands] at hc
        rw [hcs] at hc
        exact absurd hc (by simp)
    | cons c0 cs =>
      have hcands : titleCands (p :: rest) = c0 :: cs := by
        simp only [titleCands]
        exact hcs
      have htitle : _extract_title (p :: rest) =
          if titleScore (pickBest c0 cs) > 2 then (pickBest c0 cs).text else "" := by
        rw [extract_title_cons, hcs]
      obtain ⟨l₁, l₂, hdec, hmax, hstrict⟩ := pickBest_spec c0 cs
      have hbmem0 : pickBest c0 cs ∈ c0 :: cs := by
        rw [hdec]
        exact List.mem_append_right l₁ (List.mem_cons_self _ _)
      have hbmem : pickBest c0 cs ∈ titleCandidates p := by
        rw [hcs]
        exact hbmem0
      constructor
      · intro hall
        have hble : titleScore (pickBest c0 cs) ≤ 2 := by
          apply hall
          rw [hcands]
          exact hbmem0
        rw [htitle, if_neg (by omega)]
      · intro c hc hcgt
        rw [hcands] at hc
        have hcle := hmax c hc
        have hbgt : 2 < titleScore (pickBest c0 cs) := Nat.lt_of_lt_of_le hcgt hcle
        refine ⟨l₁, pickBest c0 cs, l₂, ?_, ?_, (titleCand_length hbmem).1,
          (titleCand_length hbmem).2, ?_, hstrict⟩
        · rw [hcands]
          exact hdec
        · rw [htitle, if_pos hbgt]
        · intro d hd
          rw [hcands] at hd
          exact hmax d hd

/-- C3 witness: the first conjunct applied to a concrete document with
exactly one candidate, of score 0. -/
theorem claim_C3_witness : _extract_title exPlainDoc = "" :=
  (claim_C3 exPlainDoc).1 (by decide)

/-- C4: for every document classified pathway flyer (respectively RSVP
invite, when the pathway condition is absent), the outline has length 0
or 1; a single entry always has level H1 and page forced to 0 and its
text contains pathway options (respectively hope to see you there)
case-insensitively; and when no collected candidate contains the keyword
the outline is empty. -/
theorem claim_C4 (doc : Doc) :
    (pathwayCond (docTextLower doc) = true →
      (_extract_headings doc = [] ∨
        ∃ e, _extract_headings doc = [e] ∧ e.level = "H1" ∧ e.page = 0 ∧
          pyIn "pathway options" (pyLower e.text) = true) ∧
      ((∀ h ∈ collectHeadings doc (docTextLower doc),
          pyIn "pathway options" (pyLower h.text) = false) →
        _extract_headings doc = [])) ∧
    (pathwayCond (docTextLower doc) = false →
      rsvpCond (docTextLower doc) = true →
      (_extract_headings doc = [] ∨
        ∃ e, _extract_headings doc = [e] ∧ e.level = "H1" ∧ e.page = 0 ∧
          pyIn "hope to see you there" (pyLower e.text) = true) ∧
      ((∀ h ∈ collectHeadings doc (docTextLower doc),
          pyIn "hope to see you there" (pyLower h.text) = false) →
        _extract_headings doc = [])) := by
  constructor
  · intro hpath
    unfold _extract_headings
    by_cases hform : formCond (docTextLower doc) = true
    · rw [if_pos hform]
      exact ⟨Or.inl rfl, fun _ => rfl⟩
    · rw [if_neg hform]
      unfold _filter_headings
      by_cases hemp : (collectHeadings doc (docTextLower doc)).isEmpty = true
      · rw [if_pos hemp]
        exact ⟨Or.inl rfl, fun _ => rfl⟩
      · rw [if_neg hemp, if_pos hpath]
        cases hfind : (dedupHeadings [] (collectHeadings doc (docTextLower doc))).find?
            (fun h => pyIn "pathway options" (pyLower h.text)) with
        | none => exact ⟨Or.inl rfl, fun _ => rfl⟩
        | some h0 =>
          constructor
          · refine Or.inr ⟨⟨"H1", h0.text, 0⟩, rfl, rfl, rfl, ?_⟩
            have hp := List.find?_some hfind
            exact hp
          · intro hnone
            have hmem : h0 ∈ collectHeadings doc (docTextLower doc) :=
              (dedupHeadings_sublist _ _).subset (List.mem_of_find?_eq_some hfind)
            have hp := List.find?_some hfind
            simp [hnone h0 hmem] at hp
  · intro hnp hrs
    unfold _extract_headings
    by_cases hform : formCond (docTextLower doc) = true
    · rw [if_pos hform]
      exact ⟨Or.inl rfl, fun _ => rfl⟩
    · rw [if_neg hform]
      unfold _filter_headings
      by_cases hemp : (collectHeadings doc (docTextLower doc)).isEmpty = true
      · rw [if_pos hemp]
        exact ⟨Or.inl rfl, fun _ => rfl⟩
      · rw [if_neg hemp, if_neg (by simp [hnp]), if_pos hrs]
        cases hfind : (dedupHeadings [] (collectHeadings doc (docTextLower doc))).find?
            (fun h => pyIn "hope to see you there" (pyLower h.text)) with
        | none => exact ⟨Or.inl rfl, fun _ => rfl⟩
        | some h0 =>
          constructor
          · refine Or.inr ⟨⟨"H1", h0.text, 0⟩, rfl, rfl, rfl, ?_⟩
            have hp := List.find?_some hfind
            exact hp
          · intro hnone
            have hmem : h0 ∈ collectHeadings doc (docTextLower doc) :=
              (dedupHeadings_sublist _ _).subset (List.mem_of_find?_eq_some hfind)
            have hp := List.find?_some hfind
            simp [hnone h0 hmem] at hp

/-- C4 witness: the pathway part applied to a concrete pathway-flyer
document. -/
theorem claim_C4_witness :
    (_extract_headings exPathwayDoc = [] ∨
      ∃ e, _extract_headings exPathwayDoc = [e] ∧ e.level = "H1" ∧ e.page = 0 ∧
        pyIn "pathway options" (pyLower e.text) = true) ∧
    ((∀ h ∈ collectHeadings exPathwayDoc (docTextLower exPathwayDoc),
        pyIn "pathway options" (pyLower h.text) = false) →
      _extract_headings exPathwayDoc = []) :=
  (claim_C4 exPathwayDoc).1 (by decide)

/-- C7: when the three-page text satisfies the RFP or digital-library
condition and neither the pathway nor the RSVP special case applies,
every entry of the filtered outline is leveled by case-insensitive
keyword membership of its text, the rule assigning H1 to texts
containing summary, background, milestones, approach or evaluation, H2
to texts containing appendix, terms of reference or membership, and H3
otherwise; in particular Executive Summary receives H1. -/
theorem claim_C7 (hs : List Heading) (dt : String)
    (h1 : rfpCond dt = true) (h2 : pathwayCond dt = false)
    (h3 : rsvpCond dt = false) :
    (∀ e ∈ _filter_headings hs dt, e.level = rfpLevel e.text) ∧
    rfpLevel "Executive Summary" = "H1" := by
  refine ⟨?_, by decide⟩
  intro e he
  unfold _filter_headings at he
  split at he
  · simp at he
  · rw [if_neg (by simp [h2]), if_neg (by simp [h3])] at he
    have hmem := (sortByPage_perm _).mem_iff.mp he
    rw [List.mem_map] at hmem
    obtain ⟨h0, _, rfl⟩ := hmem
    rfl

/-- C7 witness: the theorem applied to a concrete candidate list and a
concrete RFP document text: the entry produced for Executive Summary is
in the output and carries the keyword-membership level. -/
theorem claim_C7_witness :
    (⟨"H1", "Executive Summary", 2⟩ : OutlineEntry)
        ∈ _filter_headings exRfpHeadings exRfpText ∧
    OutlineEntry.level ⟨"H1", "Executive Summary", 2⟩
      = rfpLevel (OutlineEntry.text ⟨"H1", "Executive Summary", 2⟩) :=
  ⟨by decide,
    (claim_C7 exRfpHeadings exRfpText (by decide) (by decide) (by decide)).1
      ⟨"H1", "Executive Summary", 2⟩ (by decide)⟩

end PDFOutline
